import Mathlib

/-!
Shallow embedding of the test-case-generation pipeline of the
`cookbook/agents/5x_testcase_generator*.py` scripts: file discovery over a
directory tree (os.walk), the content reader `get_file_code`, the writer
`store_jest_test_case_of_file`, and the per-file orchestration loops of
`53_testcase_generator_agent.py` (`TestCaseWorkflow.run`) and
`57_testcase.py` (`generate_test_cases_for_app`).

Paths appear in two forms, mirroring the two ways the source manipulates
them: as plain strings in the discovery section (the source only ever uses
`root` as a string: substring test against "node_modules", `os.path.join`)
and as lists of components in the reader/writer section (where
`os.path.relpath`, `os.path.join`, `os.path.dirname` and `os.makedirs`
operate on the path structure).
-/

namespace Spec2Proof

/-! ## String helpers (Python semantics) -/

/-- Models `os.path.join a b` for a relative `b` and an `a` without a trailing
separator: `a + "/" + b`, except that joining onto the empty string yields
`b` itself. -/
def pyJoin (a b : String) : String :=
  if a = "" then b else a ++ "/" ++ b

/-- Python's `sub in s` substring test. -/
def strContains (s sub : String) : Bool :=
  decide (sub.toList <:+: s.toList)

/-- Python's `s.endswith(suffix)`. -/
def strEndsWith (s suffix : String) : Bool :=
  decide (suffix.toList <:+ s.toList)

/-- The characters Python's `str.strip()` removes. -/
def isPySpace (c : Char) : Bool :=
  c = ' ' || c = '\t' || c = '\n' || c = '\r' || c = '\x0b' || c = '\x0c'

/-- Python's `s.strip()`: drop leading and trailing whitespace. -/
def pyStrip (s : String) : String :=
  String.mk (((s.toList.dropWhile isPySpace).reverse.dropWhile isPySpace).reverse)

/-! ## Directory trees and `os.walk`

A directory is a list of file names plus a forest of named subdirectories.
`walkTree` mirrors `os.walk(top)` (top-down): it yields the pair
`(root, files)` for the directory itself and then recurses into each child,
with the child's root string built by `os.path.join(root, name)`. -/

mutual
inductive FTree : Type where
  | mk (files : List String) (children : FForest)
inductive FForest : Type where
  | nil
  | cons (name : String) (tree : FTree) (rest : FForest)
end

mutual
def walkTree : FTree → String → List (String × List String)
  | .mk files children, root => (root, files) :: walkForest children root
def walkForest : FForest → String → List (String × List String)
  | .nil, _ => []
  | .cons name t rest, root => walkTree t (pyJoin root name) ++ walkForest rest root
end

/- All `(directory root, file name)` pairs of the tree, in traversal
order: the reference enumeration of "every file under the root". -/
mutual
def allFilesTree : FTree → String → List (String × String)
  | .mk files children, root =>
      files.map (fun f => (root, f)) ++ allFilesForest children root
def allFilesForest : FForest → String → List (String × String)
  | .nil, _ => []
  | .cons name t rest, root =>
      allFilesTree t (pyJoin root name) ++ allFilesForest rest root
end

/-- Models `os.walk` proper: called on a root that does not exist it yields no
entries at all (the `scandir` error is swallowed because `onerror` defaults
to `None`), so the loop body never runs. `none` models a missing root. -/
def os_walk (fs : Option FTree) (top : String) : List (String × List String) :=
  match fs with
  | none => []
  | some t => walkTree t top

/-! ## Discovery: `get_nextjs_file_paths`
(`51_testcase_generator_agent.py` lines 57-95; the 53 variant is identical,
the 54/56/57 variants put every `.tsx` file in `components`.) -/

structure NextJsFilePaths where
  pages : List String
  components : List String
deriving DecidableEq

/-- One iteration of the outer `for root, dirs, files in os.walk(...)` loop,
restricted to the `pages` accumulator: skipped entirely when
`"node_modules" in root`, otherwise every `file` with
`file.endswith(".tsx")` and `file == "page.tsx"` contributes
`os.path.join(root, file)`. -/
def pagesOfEntry (e : String × List String) : List String :=
  if strContains e.1 "node_modules" then []
  else (e.2.filter (fun f => strEndsWith f ".tsx" && decide (f = "page.tsx"))).map
    (fun f => pyJoin e.1 f)

/-- The same iteration restricted to the `components` accumulator
(every other `.tsx` file). -/
def componentsOfEntry (e : String × List String) : List String :=
  if strContains e.1 "node_modules" then []
  else (e.2.filter (fun f => strEndsWith f ".tsx" && !(decide (f = "page.tsx")))).map
    (fun f => pyJoin e.1 f)

/-- Models `get_nextjs_file_paths(app_path)`: walk the tree, skip roots containing
`"node_modules"`, collect `page.tsx` files into `pages` and the other
`.tsx` files into `components`. -/
def get_nextjs_file_paths (fs : Option FTree) (app_path : String) : NextJsFilePaths :=
  ⟨(os_walk fs app_path).flatMap pagesOfEntry,
   (os_walk fs app_path).flatMap componentsOfEntry⟩

/-! ## Component paths and `os.path` operations

In the reader/writer sections a path is its list of components (the pieces
between separators of a normalized absolute path). -/

abbrev CPath := List String

/-- Length of the common component prefix of two paths. -/
def commonPrefixLen : CPath → CPath → Nat
  | a :: as, b :: bs => if a = b then commonPrefixLen as bs + 1 else 0
  | _, _ => 0

/-- Models `os.path.relpath(path, start)` on normalized absolute paths (POSIX):
climb out of the components of `start` past the common prefix with `".."`
steps, then descend into the rest of `path`; two equal paths give `"."`. -/
def relpath (path start : CPath) : CPath :=
  let c := commonPrefixLen path start
  let r := List.replicate (start.length - c) ".." ++ path.drop c
  if r = [] then ["."] else r

/-- String concatenation onto a path (`test_file_path + ".test.js"`):
the suffix attaches to the final component. -/
def appendExt : CPath → String → CPath
  | [], ext => [ext]
  | [x], ext => [x ++ ext]
  | x :: y :: xs, ext => x :: appendExt (y :: xs) ext

/-- Resolve `"."` and `".."` components the way the filesystem does for an
absolute path (at the root, `".."` stays at the root): where a written file
actually lands. -/
def normalize (p : CPath) : CPath :=
  p.foldl (fun acc c =>
    if c = "." then acc else if c = ".." then acc.dropLast else acc ++ [c]) []

/-! ## Filesystem state for the writer -/

/-- The mutable filesystem: which directories exist and what each file
holds. -/
@[ext]
structure FSState where
  dirs : CPath → Bool
  files : CPath → Option String

/-- Models `os.makedirs(d, exist_ok=True)`: `d` and every ancestor of `d` exist
afterwards; nothing else changes. -/
def makedirs (d : CPath) (σ : FSState) : FSState :=
  { σ with dirs := fun q => if q <+: d then true else σ.dirs q }

/-- Models `open(target, "w")` followed by `f.write(content)`: unconditional
overwrite of the single file `target`. -/
def writeFile (target : CPath) (content : String) (σ : FSState) : FSState :=
  { σ with files := fun q => if q = target then some content else σ.files q }

/-- Models `os.path.join(app_path, "__tests__", relative_path)` with
`relative_path = os.path.relpath(file_path, app_path)`, the path both store
variants build. -/
def test_file_path (app_path file_path : CPath) : CPath :=
  app_path ++ ["__tests__"] ++ relpath file_path app_path

/-! ## The writer: `store_jest_test_case_of_file` -/

/-- Models `store_jest_test_case_of_file` of `51_testcase_generator_agent.py`
(lines 29-54): compute the mirrored path, `os.makedirs` its directory, and
write `test_code` to `test_file_path + ".test.js"` - unconditionally, with
no emptiness check. -/
def store_jest_test_case_of_file_51 (app_path file_path : CPath) (test_code : String)
    (σ : FSState) : FSState :=
  let t := test_file_path app_path file_path
  writeFile (appendExt t ".test.js") test_code (makedirs t.dropLast σ)

structure JestTestCase where
  app_path : CPath
  file_path : CPath
  test_code : String

/-- Models `store_jest_test_case_of_file` of `56_testcase_generator_agent_pydantic.py`
(lines 49-78) and `57_testcase.py` (lines 50-79): identical to the 51
variant except that whitespace-only `test_code` returns before any
filesystem operation (`if not test_code.strip(): ... return`). -/
def store_jest_test_case_of_file_57 (test_data : JestTestCase) (σ : FSState) : FSState :=
  if pyStrip test_data.test_code = "" then σ
  else store_jest_test_case_of_file_51 test_data.app_path test_data.file_path
    test_data.test_code σ

/-! ## The readers: `get_file_code` -/

/-- The exceptions the reader can surface. -/
inductive PyError where
  | fileNotFound (p : CPath)
deriving DecidableEq

/-- Models `get_file_code` of `51_testcase_generator_agent.py` (lines 12-24) and
`53_testcase_generator_agent.py` (lines 55-61): `open(file_path, "r")`
with no existence check, so a missing file raises `FileNotFoundError`;
otherwise the raw contents are returned. -/
def get_file_code_51 (files : CPath → Option String) (file_path : CPath) :
    Except PyError String :=
  match files file_path with
  | none => .error (.fileNotFound file_path)
  | some c => .ok c

/-- Models `get_file_code` of `57_testcase.py` (lines 29-47), identical in
`54_test_case_generator_agent.py` and `56_..._pydantic.py`: a missing path
returns `""`; otherwise the content is stripped, and if the stripped
content is empty the fixed string `"[ERROR] File is empty."` is returned in
its place. -/
def get_file_code_57 (files : CPath → Option String) (file_path : CPath) : String :=
  match files file_path with
  | none => ""
  | some c => if pyStrip c = "" then "[ERROR] File is empty." else pyStrip c

/-! ## Orchestrators -/

/-- A stage call of one file's pipeline, recorded in order. -/
inductive Stage where
  | read
  | gen
  | store
deriving DecidableEq

/-- The terminal outcome of one file's pipeline in
`TestCaseWorkflow.run`. -/
inductive Outcome where
  | readFailed
  | genFailed
  | storeFailed
  | success (msg : String)
deriving DecidableEq

/-- The body of the per-file loop of `TestCaseWorkflow.run`
(`53_testcase_generator_agent.py` lines 169-199). The three agent calls are
oracles returning `none` exactly when the source's guard
(`not response or not isinstance(response.content, ...)`) fires; each
failure `continue`s to the next file. Returns the file's terminal outcome
together with the ordered list of stage calls made for it. -/
def pipeline_53 (read : CPath → Option String) (gen : String → Option String)
    (store : CPath → CPath → String → Option String) (app_path file_path : CPath) :
    Outcome × List Stage :=
  match read file_path with
  | none => (.readFailed, [.read])
  | some code =>
    match gen code with
    | none => (.genFailed, [.read, .gen])
    | some test_code =>
      match store app_path file_path test_code with
      | none => (.storeFailed, [.read, .gen, .store])
      | some msg => (.success msg, [.read, .gen, .store])

/-- Models `TestCaseWorkflow.run` after a successful scan
(`53_testcase_generator_agent.py` lines 165-201): one loop iteration per
path of `all_paths`, each running `pipeline_53`. -/
def run_53 (read : CPath → Option String) (gen : String → Option String)
    (store : CPath → CPath → String → Option String) (app_path : CPath)
    (all_paths : List CPath) : List (CPath × Outcome × List Stage) :=
  all_paths.map (fun p => (p, pipeline_53 read gen store app_path p))

/-- Models `generate_test_cases_for_app` of `57_testcase.py` (lines 189-204),
after discovery: for each component file, read it with `get_file_code`,
hand the result - whatever it is - to `writer_agent.run` (the oracle
`gen`), and store the response. Returns the final filesystem together with
the list of contents passed to the generator, in call order.
`gen_step` is one iteration of its `for file_path in file_paths.components`
loop. -/
def gen_step (gen : String → JestTestCase) (acc : FSState × List String)
    (p : CPath) : FSState × List String :=
  let content := get_file_code_57 acc.1.files p
  let response := gen content
  (store_jest_test_case_of_file_57 response acc.1, acc.2 ++ [content])

def generate_test_cases_for_app (gen : String → JestTestCase)
    (components : List CPath) (σ : FSState) : FSState × List String :=
  components.foldl (gen_step gen) (σ, [])

/-! ## Helper lemmas -/

theorem commonPrefixLen_append (R x : CPath) : commonPrefixLen (R ++ x) R = R.length := by
  induction R with
  | nil => cases x <;> rfl
  | cons a as ih => simpa [commonPrefixLen] using ih

theorem relpath_append_of_ne_nil (R x : CPath) (hx : x ≠ []) :
    relpath (R ++ x) R = x := by
  unfold relpath
  simp only [commonPrefixLen_append, Nat.sub_self, List.replicate_zero, List.nil_append,
    List.drop_left]
  simp [hx]

theorem appendExt_concat (xs : CPath) (x ext : String) :
    appendExt (xs ++ [x]) ext = xs ++ [x ++ ext] := by
  induction xs with
  | nil => rfl
  | cons a as ih =>
    cases as with
    | nil => rfl
    | cons b bs => simpa [appendExt] using ih

theorem dropLast_append_singleton (l : CPath) (a : String) : (l ++ [a]).dropLast = l := by
  simp

theorem gen_foldl_length (gen : String → JestTestCase) (components : List CPath) :
    ∀ (σ : FSState) (tr : List String),
      ((components.foldl (gen_step gen) (σ, tr)).2).length = tr.length + components.length := by
  induction components with
  | nil => intro σ tr; simp
  | cons p ps ih =>
    intro σ tr
    simp only [List.foldl_cons, gen_step]
    rw [ih]
    simp
    omega

/-! ## C3 - the reader and exceptions.
The claim says the content-reading operation never raises and encodes a
missing path as a not-found result with empty text. The `get_file_code` of
51/53 opens the file with no existence check and no handler, so a missing
path raises `FileNotFoundError`; only the 54/56/57 variant returns `""`
without raising. -/

/-- C3 counterexample: `get_file_code` of `51_testcase_generator_agent.py`
applied to a path that does not exist propagates `FileNotFoundError`
instead of returning a not-found value. -/
theorem get_file_code_51_missing_raises_cex :
    get_file_code_51 (fun _ => none) ["missing.tsx"] =
      Except.error (PyError.fileNotFound ["missing.tsx"]) := rfl

/-- C3 amended: for a missing path, the 54/56/57 reader returns `""`
without raising, while the 51/53 reader raises `FileNotFoundError`; neither
variant installs a handler for any other read error. -/
theorem get_file_code_missing_path (files : CPath → Option String) (p : CPath) :
    (files p = none → get_file_code_57 files p = "") ∧
    (files p = none → get_file_code_51 files p = Except.error (PyError.fileNotFound p)) := by
  constructor <;> intro h <;> simp [get_file_code_57, get_file_code_51, h]

/-! ## C10 - empty text exactly for missing files. -/

/-- C10: `get_file_code` (57 variant) returns `""` exactly when the file
is missing; an existing file whose stripped content is empty yields the
fixed sentinel `"[ERROR] File is empty."`; an existing file never yields
empty text; and the sentinel is indistinguishable from genuine content,
since a file whose real content is the sentinel produces the same output
as a whitespace-only file. -/
theorem get_file_code_57_empty_iff_missing (files : CPath → Option String) (p : CPath) :
    (get_file_code_57 files p = "" ↔ files p = none) ∧
    (∀ c, files p = some c → pyStrip c = "" →
      get_file_code_57 files p = "[ERROR] File is empty.") ∧
    (∀ c, files p = some c → get_file_code_57 files p ≠ "") ∧
    (get_file_code_57 (fun _ => some "[ERROR] File is empty.") p =
      get_file_code_57 (fun _ => some " ") p) := by
  refine ⟨?_, ?_, ?_, rfl⟩
  · cases h : files p with
    | none => simp [get_file_code_57, h]
    | some c =>
      simp only [get_file_code_57, h, iff_false]
      by_cases hc : pyStrip c = "" <;> simp [hc]
  · intro c hc hs
    simp [get_file_code_57, hc, hs]
  · intro c hc
    simp only [get_file_code_57, hc]
    by_cases hs : pyStrip c = "" <;> simp [hs]

/-! ## C7 - discovery on a missing root.
The claim says discovery fails with a not-found error. `os.walk` on a
missing root silently yields no entries, so `get_nextjs_file_paths`
returns empty lists instead of raising. -/

/-- C7 counterexample: discovery on a missing root returns empty `pages`
and `components` rather than failing. -/
theorem get_nextjs_file_paths_missing_root_cex :
    get_nextjs_file_paths none "/missing/app" = ⟨[], []⟩ := rfl

/-- C7 amended: for every root path that does not exist, discovery returns
the empty result `⟨[], []⟩` and raises nothing. -/
theorem get_nextjs_file_paths_missing_root (app_path : String) :
    get_nextjs_file_paths none app_path = ⟨[], []⟩ := rfl

/-! ## C5 - skipping empty generated content.
The claim covers both cited store variants. The 56/57 variant indeed
returns before any filesystem operation when the test code strips to
empty, but the 51 variant has no such guard and writes unconditionally. -/

/-- C5 counterexample: the 51 store variant, given empty (hence
non-`ok`) test code, still creates the mirror directory and writes an
empty test file - the filesystem does not stay unchanged. -/
theorem store_51_empty_not_skipped_cex :
    pyStrip "" = "" ∧
    (store_jest_test_case_of_file_51 ["r"] ["r", "a.tsx"] ""
        ⟨fun _ => false, fun _ => none⟩).files ["r", "__tests__", "a.tsx.test.js"] = some "" ∧
    (store_jest_test_case_of_file_51 ["r"] ["r", "a.tsx"] ""
        ⟨fun _ => false, fun _ => none⟩).dirs ["r", "__tests__"] = true := by
  exact ⟨rfl, by rfl, by rfl⟩

/-- C5 amended: the guarded variant (54/56/57) leaves the filesystem
entirely unchanged on whitespace-only test code, while the 51 variant
writes even empty content to the target file. -/
theorem store_57_skips_empty (td : JestTestCase) (σ : FSState)
    (app_path file_path : CPath) :
    (pyStrip td.test_code = "" → store_jest_test_case_of_file_57 td σ = σ) ∧
    (store_jest_test_case_of_file_51 app_path file_path "" σ).files
      (appendExt (test_file_path app_path file_path) ".test.js") = some "" := by
  constructor
  · intro h
    simp [store_jest_test_case_of_file_57, h]
  · simp [store_jest_test_case_of_file_51, writeFile]

/-! ## C6 - idempotent, unconditional overwrite. -/

/-- C6: running the 51 write twice with identical content is the same as
running it once, and after each run the target file holds exactly the
written bytes (the overwrite is unconditional). -/
theorem store_51_idempotent (app_path file_path : CPath) (code : String) (σ : FSState) :
    store_jest_test_case_of_file_51 app_path file_path code
        (store_jest_test_case_of_file_51 app_path file_path code σ) =
      store_jest_test_case_of_file_51 app_path file_path code σ ∧
    (store_jest_test_case_of_file_51 app_path file_path code σ).files
      (appendExt (test_file_path app_path file_path) ".test.js") = some code := by
  constructor
  · unfold store_jest_test_case_of_file_51 writeFile makedirs
    ext q
    · simp only
      by_cases h : q <+: (test_file_path app_path file_path).dropLast <;> simp [h]
    · simp only
      by_cases h : q = appendExt (test_file_path app_path file_path) ".test.js" <;>
        simp [h]
  · simp [store_jest_test_case_of_file_51, writeFile]

/-! ## C8 - generation on non-ok content.
The claim says the per-file pipeline terminates before generation for
missing, zero-length or whitespace-only files. In `57_testcase.py` the
loop has no such check: `writer_agent.run(content)` is invoked on whatever
`get_file_code` returned, including `""` and the empty-file sentinel. -/

/-- C8 counterexample: over a root holding a single whitespace-only
`.tsx` file, the 57 pipeline invokes the generator on the sentinel
content of an `empty`-status read, instead of terminating before
generation. -/
theorem generation_invoked_on_empty_cex :
    (generate_test_cases_for_app (fun _ => ⟨["r"], ["r", "a.tsx"], ""⟩)
        [["r", "a.tsx"]]
        ⟨fun _ => false, fun q => if q = ["r", "a.tsx"] then some " " else none⟩).2 =
      ["[ERROR] File is empty."] ∧ pyStrip " " = "" := ⟨rfl, rfl⟩

/-- C8 amended: the 57 pipeline invokes generation exactly once per
discovered file, on the raw result of `get_file_code`, whatever its read
status; no read outcome terminates the file's pipeline before
generation. -/
theorem generation_once_per_file (gen : String → JestTestCase)
    (components : List CPath) (σ : FSState) :
    (generate_test_cases_for_app gen components σ).2.length = components.length ∧
    ∀ p, (generate_test_cases_for_app gen [p] σ).2 = [get_file_code_57 σ.files p] := by
  constructor
  · simpa using gen_foldl_length gen components σ []
  · intro p
    simp [generate_test_cases_for_app, gen_step]

/-! ## C4 - the append-mode mirrored target path. -/

theorem test_file_path_append (R rest : CPath) (f : String) :
    test_file_path R (R ++ rest ++ [f]) = R ++ ["__tests__"] ++ rest ++ [f] := by
  unfold test_file_path
  rw [List.append_assoc R rest [f], relpath_append_of_ne_nil R (rest ++ [f]) (by simp),
    ← List.append_assoc]

/-- C4: for an original file at `R/rest/f` under project root `R`, the 51
append-mode write stores the generated content at exactly
`R/__tests__/rest/f.test.js`: that target holds the content, every other
file is untouched, and every directory on the way to
`R/__tests__/rest` exists afterwards. -/
theorem store_51_mirrored_target (R rest : CPath) (f code : String) (σ : FSState) :
    ((store_jest_test_case_of_file_51 R (R ++ rest ++ [f]) code σ).files
        (R ++ ["__tests__"] ++ rest ++ [f ++ ".test.js"]) = some code) ∧
    (∀ q, q ≠ R ++ ["__tests__"] ++ rest ++ [f ++ ".test.js"] →
      (store_jest_test_case_of_file_51 R (R ++ rest ++ [f]) code σ).files q = σ.files q) ∧
    (∀ q, q <+: R ++ ["__tests__"] ++ rest →
      (store_jest_test_case_of_file_51 R (R ++ rest ++ [f]) code σ).dirs q = true) := by
  have htgt : appendExt (test_file_path R (R ++ rest ++ [f])) ".test.js" =
      R ++ ["__tests__"] ++ rest ++ [f ++ ".test.js"] := by
    rw [test_file_path_append, appendExt_concat]
  have hdir : (test_file_path R (R ++ rest ++ [f])).dropLast = R ++ ["__tests__"] ++ rest := by
    rw [test_file_path_append]
    exact dropLast_append_singleton (R ++ ["__tests__"] ++ rest) f
  refine ⟨?_, ?_, ?_⟩
  · simp only [store_jest_test_case_of_file_51, htgt, writeFile, makedirs]
    simp
  · intro q hq
    simp only [store_jest_test_case_of_file_51, htgt, writeFile, makedirs]
    rw [if_neg hq]
  · intro q hq
    simp only [store_jest_test_case_of_file_51, hdir, writeFile, makedirs]
    rw [if_pos hq]

/-! ## C2 - one terminal outcome per discovered file, no retries. -/

/-- C2: in `TestCaseWorkflow.run`, the per-file outcomes are exactly one
per discovered path, in discovery order (no duplicates, no omissions);
within one file's pipeline every stage is called at most once, and a
failing stage ends that file's pipeline with no later stage called, the
run moving on to the next file. In the 57 runner, too, each discovered
file contributes exactly one generation call. -/
theorem run_53_one_outcome_per_file (read : CPath → Option String)
    (gen : String → Option String) (store : CPath → CPath → String → Option String)
    (app_path : CPath) (all_paths : List CPath) :
    ((run_53 read gen store app_path all_paths).map Prod.fst = all_paths) ∧
    (∀ e ∈ run_53 read gen store app_path all_paths,
      (e.2.2.count Stage.read ≤ 1 ∧ e.2.2.count Stage.gen ≤ 1 ∧
        e.2.2.count Stage.store ≤ 1) ∧
      (e.2.1 = Outcome.readFailed → e.2.2 = [Stage.read]) ∧
      (e.2.1 = Outcome.genFailed → e.2.2 = [Stage.read, Stage.gen]) ∧
      (e.2.1 = Outcome.storeFailed → e.2.2 = [Stage.read, Stage.gen, Stage.store]) ∧
      (∀ m, e.2.1 = Outcome.success m → e.2.2 = [Stage.read, Stage.gen, Stage.store])) ∧
    (∀ (gen2 : String → JestTestCase) (σ : FSState),
      (generate_test_cases_for_app gen2 all_paths σ).2.length = all_paths.length) := by
  refine ⟨?_, ?_, ?_⟩
  · simp [run_53, Function.comp_def]
  · intro e he
    simp only [run_53, List.mem_map] at he
    obtain ⟨p, _, rfl⟩ := he
    cases hr : read p with
    | none =>
      have hp : pipeline_53 read gen store app_path p = (.readFailed, [.read]) := by
        simp [pipeline_53, hr]
      rw [hp]
      dsimp only
      exact ⟨by decide, by simp, by simp, by simp, by simp⟩
    | some code =>
      cases hg : gen code with
      | none =>
        have hp : pipeline_53 read gen store app_path p = (.genFailed, [.read, .gen]) := by
          simp [pipeline_53, hr, hg]
        rw [hp]
        dsimp only
        exact ⟨by decide, by simp, by simp, by simp, by simp⟩
      | some tc =>
        cases hs : store app_path p tc with
        | none =>
          have hp : pipeline_53 read gen store app_path p =
              (.storeFailed, [.read, .gen, .store]) := by
            simp [pipeline_53, hr, hg, hs]
          rw [hp]
          dsimp only
          exact ⟨by decide, by simp, by simp, by simp, by simp⟩
        | some msg =>
          have hp : pipeline_53 read gen store app_path p =
              (.success msg, [.read, .gen, .store]) := by
            simp [pipeline_53, hr, hg, hs]
          rw [hp]
          dsimp only
          exact ⟨by decide, by simp, by simp, by simp, by simp⟩
  · intro gen2 σ
    simpa using gen_foldl_length gen2 all_paths σ []

/-! ## C1 - discovery returns exactly the filtered file set. -/

mutual
theorem mem_allFilesTree (t : FTree) (root r f : String) :
    (r, f) ∈ allFilesTree t root ↔ ∃ fl, (r, fl) ∈ walkTree t root ∧ f ∈ fl := by
  cases t with
  | mk files children =>
    simp only [allFilesTree, walkTree, List.mem_append, List.mem_map, List.mem_cons,
      Prod.mk.injEq, mem_allFilesForest children root r f]
    constructor
    · rintro (⟨g, hg, rfl, rfl⟩ | ⟨fl, hfl, hf⟩)
      · exact ⟨files, Or.inl ⟨rfl, rfl⟩, hg⟩
      · exact ⟨fl, Or.inr hfl, hf⟩
    · rintro ⟨fl, hor, hf⟩
      rcases hor with ⟨rfl, rfl⟩ | hfl
      · exact Or.inl ⟨f, hf, rfl, rfl⟩
      · exact Or.inr ⟨fl, hfl, hf⟩
theorem mem_allFilesForest (fo : FForest) (root r f : String) :
    (r, f) ∈ allFilesForest fo root ↔ ∃ fl, (r, fl) ∈ walkForest fo root ∧ f ∈ fl := by
  cases fo with
  | nil => simp [allFilesForest, walkForest]
  | cons name t rest =>
    simp only [allFilesForest, walkForest, List.mem_append,
      mem_allFilesTree t (pyJoin root name) r f, mem_allFilesForest rest root r f]
    constructor
    · rintro (⟨fl, h, hf⟩ | ⟨fl, h, hf⟩)
      · exact ⟨fl, Or.inl h, hf⟩
      · exact ⟨fl, Or.inr h, hf⟩
    · rintro ⟨fl, h | h, hf⟩
      · exact Or.inl ⟨fl, h, hf⟩
      · exact Or.inr ⟨fl, h, hf⟩
end

theorem mem_pages_or_components (e : String × List String) (p : String) :
    (p ∈ pagesOfEntry e ∨ p ∈ componentsOfEntry e) ↔
      (strContains e.1 "node_modules" = false ∧
        ∃ f, f ∈ e.2 ∧ strEndsWith f ".tsx" = true ∧ p = pyJoin e.1 f) := by
  unfold pagesOfEntry componentsOfEntry
  by_cases h : strContains e.1 "node_modules"
  · simp [h]
  · simp only [h, Bool.false_eq_true, if_false, List.mem_map, List.mem_filter,
      Bool.and_eq_true, decide_eq_true_eq, Bool.not_eq_true', decide_eq_false_iff_not,
      Bool.not_eq_true]
    constructor
    · rintro (⟨f, ⟨hf, hend, _⟩, rfl⟩ | ⟨f, ⟨hf, hend, _⟩, rfl⟩) <;>
        exact ⟨trivial, f, hf, hend, rfl⟩
    · rintro ⟨-, f, hf, hend, rfl⟩
      by_cases hp : f = "page.tsx"
      · exact Or.inl ⟨f, ⟨hf, hend, hp⟩, rfl⟩
      · exact Or.inr ⟨f, ⟨hf, hend, hp⟩, rfl⟩

/-- C1: a path is returned by discovery (in `pages` or `components`) if and
only if it is `os.path.join(root, f)` for some file `f` under the walked
tree whose name ends in `".tsx"` and whose traversal root does not contain
`"node_modules"` as a substring - nothing else is included and none of
these is omitted. -/
theorem discovery_matches_tsx_filter (t : FTree) (app_path p : String) :
    (p ∈ (get_nextjs_file_paths (some t) app_path).pages ∨
      p ∈ (get_nextjs_file_paths (some t) app_path).components) ↔
      ∃ r f, (r, f) ∈ allFilesTree t app_path ∧ strEndsWith f ".tsx" = true ∧
        strContains r "node_modules" = false ∧ p = pyJoin r f := by
  simp only [get_nextjs_file_paths, os_walk, List.mem_flatMap]
  constructor
  · rintro (⟨e, he, hp⟩ | ⟨e, he, hp⟩)
    · obtain ⟨hnc, f, hf, hend, rfl⟩ := (mem_pages_or_components e p).mp (Or.inl hp)
      exact ⟨e.1, f, (mem_allFilesTree t app_path e.1 f).mpr ⟨e.2, he, hf⟩, hend, hnc, rfl⟩
    · obtain ⟨hnc, f, hf, hend, rfl⟩ := (mem_pages_or_components e p).mp (Or.inr hp)
      exact ⟨e.1, f, (mem_allFilesTree t app_path e.1 f).mpr ⟨e.2, he, hf⟩, hend, hnc, rfl⟩
  · rintro ⟨r, f, hrf, hend, hnc, rfl⟩
    obtain ⟨fl, hwalk, hf⟩ := (mem_allFilesTree t app_path r f).mp hrf
    rcases (mem_pages_or_components (r, fl) (pyJoin r f)).mpr ⟨hnc, f, hf, hend, rfl⟩ with
      hp | hp
    · exact Or.inl ⟨(r, fl), hwalk, hp⟩
    · exact Or.inr ⟨(r, fl), hwalk, hp⟩

/-! ## C9 - where the mirrored target actually lands. -/

theorem relpath_def (p s : CPath) : relpath p s =
    if List.replicate (s.length - commonPrefixLen p s) ".." ++ p.drop (commonPrefixLen p s)
        = [] then ["."]
    else List.replicate (s.length - commonPrefixLen p s) ".." ++
      p.drop (commonPrefixLen p s) := rfl

theorem commonPrefixLen_le (p s : CPath) : commonPrefixLen p s ≤ s.length := by
  induction p generalizing s with
  | nil => cases s <;> simp [commonPrefixLen]
  | cons a as ih =>
    cases s with
    | nil => simp [commonPrefixLen]
    | cons b bs =>
      by_cases hab : a = b
      · simpa [commonPrefixLen, hab] using Nat.succ_le_succ (ih bs)
      · simp [commonPrefixLen, hab]

theorem prefix_iff_commonPrefixLen (p s : CPath) :
    s <+: p ↔ commonPrefixLen p s = s.length := by
  constructor
  · rintro ⟨t, rfl⟩
    exact commonPrefixLen_append s t
  · intro h
    induction s generalizing p with
    | nil => exact List.nil_prefix
    | cons b bs ih =>
      cases p with
      | nil => simp [commonPrefixLen] at h
      | cons a as =>
        by_cases hab : a = b
        · subst hab
          simp [commonPrefixLen] at h
          obtain ⟨tl, htl⟩ := ih as (by omega)
          exact ⟨tl, by simp [← htl]⟩
        · simp [commonPrefixLen, hab] at h

theorem relpath_outside_starts_dotdot (p s : CPath) (h : ¬ s <+: p) :
    ∃ tl, relpath p s = ".." :: tl := by
  have hlt : commonPrefixLen p s < s.length := by
    rcases Nat.lt_or_ge (commonPrefixLen p s) s.length with h1 | h1
    · exact h1
    · exact absurd ((prefix_iff_commonPrefixLen p s).mpr
        (Nat.le_antisymm (commonPrefixLen_le p s) h1)) h
  obtain ⟨k, hk⟩ : ∃ k, s.length - commonPrefixLen p s = k + 1 :=
    ⟨s.length - commonPrefixLen p s - 1, by omega⟩
  refine ⟨List.replicate k ".." ++ p.drop (commonPrefixLen p s), ?_⟩
  rw [relpath_def, hk, List.replicate_succ]
  simp

theorem normalize_aux_clean (l : CPath) :
    ∀ acc : CPath, (∀ c ∈ l, c ≠ "." ∧ c ≠ "..") →
      l.foldl (fun acc c =>
        if c = "." then acc else if c = ".." then acc.dropLast else acc ++ [c]) acc
        = acc ++ l := by
  induction l with
  | nil => intro acc _; simp
  | cons a as ih =>
    intro acc h
    have ha := h a (List.mem_cons_self a as)
    simp only [List.foldl_cons, if_neg ha.1, if_neg ha.2]
    rw [ih (acc ++ [a]) (fun c hc => h c (List.mem_cons_of_mem a hc))]
    simp

theorem normalize_clean (l : CPath) (h : ∀ c ∈ l, c ≠ "." ∧ c ≠ "..") :
    normalize l = l := by
  unfold normalize
  rw [normalize_aux_clean l [] h]
  simp

theorem append_testjs_ne_dots (z : String) :
    z ++ ".test.js" ≠ "." ∧ z ++ ".test.js" ≠ ".." := by
  have h8 : (".test.js" : String).length = 8 := rfl
  have h1 : ("." : String).length = 1 := rfl
  have h2 : (".." : String).length = 2 := rfl
  constructor <;> intro h <;> have hl := congrArg String.length h <;>
    rw [String.length_append] at hl <;> omega

/-- C9 counterexample: for original file `/r` and project root `/r/app`,
the original lies outside the root, yet the written file lands at
`/r/app/__tests__/...test.js` - inside the mirror directory - because the
lone `".."` of `relpath` merges with the appended `".test.js"` into an
ordinary file name. The claimed equivalence fails at this input. -/
theorem mirror_dir_containment_cex :
    ¬ ((["r", "app", "__tests__"] : CPath) <+:
        normalize (appendExt (test_file_path ["r", "app"] ["r"]) ".test.js") ↔
      (["r", "app"] : CPath) <+: (["r"] : CPath)) := by decide

/-- C9 amended: an original file under the project root (with plain
components) always yields a target under `root/__tests__`, and an original
outside the root makes `relpath` start with a `".."` component; but the
written file does not always land outside the mirror directory, so only
this direction of the claimed equivalence survives. -/
theorem mirror_dir_containment (app_path rest p : CPath) :
    ((∀ c ∈ app_path ++ rest, c ≠ "." ∧ c ≠ "..") → rest ≠ [] →
      app_path ++ ["__tests__"] <+:
        normalize (appendExt (test_file_path app_path (app_path ++ rest)) ".test.js")) ∧
    (¬ app_path <+: p → ∃ tl, relpath p app_path = ".." :: tl) := by
  constructor
  · intro hclean hne
    obtain ⟨ys, z, rfl⟩ : ∃ ys z, rest = ys ++ [z] := by
      rcases List.eq_nil_or_concat rest with h | ⟨ys, z, h⟩
      · exact absurd h hne
      · exact ⟨ys, z, by simpa [List.concat_eq_append] using h⟩
    have htgt : appendExt (test_file_path app_path (app_path ++ (ys ++ [z]))) ".test.js" =
        app_path ++ ["__tests__"] ++ ys ++ [z ++ ".test.js"] := by
      rw [← List.append_assoc, test_file_path_append, appendExt_concat]
    rw [htgt, normalize_clean]
    · exact ⟨ys ++ [z ++ ".test.js"], by simp⟩
    · intro c hc
      simp only [List.append_assoc, List.mem_append, List.mem_cons, List.mem_singleton,
        List.not_mem_nil, or_false] at hc
      rcases hc with hc | hc | hc | hc
      · exact hclean c (List.mem_append_left (ys ++ [z]) hc)
      · subst hc; exact ⟨by decide, by decide⟩
      · exact hclean c (List.mem_append_right app_path (List.mem_append_left [z] hc))
      · subst hc; exact append_testjs_ne_dots z
  · exact relpath_outside_starts_dotdot p app_path

end Spec2Proof
